import Mathlib

/-
Verification of the flocking/hunting simulation core (src/src/main.rs).

Embedding conventions:
* f32 arithmetic is idealized over the reals.
* 2D vectors (glam Vec2) are pairs of reals with pointwise Add/Sub/SMul.
* The Rust cast `as i32` applied to a squared length (always nonnegative)
  truncates toward zero and saturates at i32::MAX; on nonnegative reals this
  is the floor, capped at 2147483647.
* glam Vec2.normalize multiplies by the reciprocal of the length; on the zero
  vector the reciprocal length is infinite and the product is NaN on every
  component.  In the steering code every call to normalize is guarded by a
  squared-length test that forces the argument nonzero, so it is embedded
  there as the exact unit vector; the hunting code calls normalize unguarded,
  so there it is embedded as an Option, none marking the NaN outcome.
* Agent iteration order is the snapshot order; per-agent work is independent,
  so each pass is embedded as a map over the agent list.
-/

noncomputable section

namespace Flock

/-- 2D vector, the shallow embedding of glam Vec2. -/
abbrev Vec : Type := ℝ × ℝ

/-- Snapshot entry used by the flocking pass: (id, velocity, position),
mirroring the tuple pushed into the boids vector. -/
abbrev Boid : Type := ℕ × Vec × Vec

/-- Snapshot entry used by the hunting pass: (prey id, prey position). -/
abbrev Prey : Type := ℕ × Vec

/-- Vec2.length_squared: x*x + y*y. -/
def ls (v : Vec) : ℝ := v.1 * v.1 + v.2 * v.2

/-- Vec2.length: the square root of the squared length. -/
def len (v : Vec) : ℝ := Real.sqrt (ls v)

/-- glam Vec2.normalize, valid on nonzero vectors: v * (1/length). -/
def normalize (v : Vec) : Vec := (1 / len v) • v

/-- glam Vec2.normalize with the zero-vector outcome made explicit:
on the zero vector the Rust code produces NaN components (1/0 = inf,
0 * inf = NaN), recorded here as none. -/
def normalizeRes (v : Vec) : Option Vec :=
  if v = 0 then none else some (normalize v)

/-- Componentwise division of a vector by a scalar (Vec2 `/=`). -/
def divV (v : Vec) (r : ℝ) : Vec := (v.1 / r, v.2 / r)

/-- FlockParams resource (main.rs lines 89-97). -/
structure FlockParams where
  alignment_strength : ℝ
  cohesion_strength : ℝ
  avoidance_strength : ℝ
  gravity_strength : ℝ
  speed : ℝ
  radius : ℝ
  avoidance_radius : ℝ

/-- HuntParams resource (main.rs lines 84-87). -/
structure HuntParams where
  hunt_strength : ℝ
  radius : ℝ

/-- Accumulator state of the neighbor loop in calculate_flock_behaviour:
running alignment / cohesion / avoidance sums and the neighbor count.
The count is kept as a natural number; the f32 counter in the source is
incremented by 1.0 per neighbor, which is exact in the idealization. -/
structure Acc where
  al : Vec
  co : Vec
  av : Vec
  n : ℕ

/-- The neighbor loop of calculate_flock_behaviour (main.rs lines 258-276):
skip the entry with the own id; skip entries with squared offset beyond
radius squared; otherwise count the neighbor, add the offset to the
avoidance sum when strictly inside the avoidance radius, and add the
velocity and position to the alignment and cohesion sums. -/
def flockAccum (id : ℕ) (pos : Vec) (p : FlockParams) : List Boid → Acc → Acc
  | [], acc => acc
  | (oid, ovel, opos) :: rest, acc =>
    if oid = id then flockAccum id pos p rest acc
    else if p.radius * p.radius < ls (pos - opos) then flockAccum id pos p rest acc
    else
      flockAccum id pos p rest
        ⟨acc.al + ovel, acc.co + opos,
         (if ls (pos - opos) < p.avoidance_radius * p.avoidance_radius
          then acc.av + (pos - opos) else acc.av),
         acc.n + 1⟩

/-- The per-component clamp of the steering code (main.rs lines 289-300):
if the squared length exceeds 1, renormalize to magnitude s; otherwise
leave the vector unchanged.  The guard makes the argument of normalize
nonzero. -/
def clampTo (v : Vec) (s : ℝ) : Vec :=
  if 1 < ls v then s • normalize v else v

/-- The clamp as worded by the claim: compare the squared length against the
strength coefficient squared instead of against 1.  Written from the claim
for comparison with clampTo, which is the embedding of the source. -/
def clampToSpec (v : Vec) (s : ℝ) : Vec :=
  if s * s < ls v then s • normalize v else v

/-- Alignment component after strength scaling and averaging
(main.rs lines 281, 285). -/
def preAlign (p : FlockParams) (a : Acc) : Vec :=
  divV (p.alignment_strength • a.al) (a.n : ℝ)

/-- Cohesion component after the centroid conversion, strength scaling and
averaging (main.rs lines 279, 282, 286). -/
def preCohesion (p : FlockParams) (pos : Vec) (a : Acc) : Vec :=
  divV (p.cohesion_strength • (a.co - pos)) (a.n : ℝ)

/-- Avoidance component after strength scaling and averaging
(main.rs lines 283, 287). -/
def preAvoid (p : FlockParams) (a : Acc) : Vec :=
  divV (p.avoidance_strength • a.av) (a.n : ℝ)

/-- Gravity component (main.rs line 253): (origin - position) scaled by the
gravity strength. -/
def gravityVec (p : FlockParams) (pos : Vec) : Vec :=
  p.gravity_strength • ((0 : Vec) - pos)

/-- calculate_flock_behaviour (main.rs lines 249-303): accumulate over the
snapshot; on zero neighbors return the velocity unchanged; otherwise
average, clamp each component and sum. -/
def calculate_flock_behaviour (id : ℕ) (velocity pos : Vec) (boids : List Boid)
    (p : FlockParams) : Vec :=
  if (flockAccum id pos p boids ⟨0, 0, 0, 0⟩).n = 0 then velocity
  else
    clampTo (preAlign p (flockAccum id pos p boids ⟨0, 0, 0, 0⟩)) p.alignment_strength +
    clampTo (preCohesion p pos (flockAccum id pos p boids ⟨0, 0, 0, 0⟩)) p.cohesion_strength +
    clampTo (preAvoid p (flockAccum id pos p boids ⟨0, 0, 0, 0⟩)) p.avoidance_strength +
    clampTo (gravityVec p pos) p.gravity_strength

/-- The speed clamp of the flocking pass (main.rs lines 243-245): if the
squared length of the velocity exceeds speed squared, renormalize to
magnitude speed. -/
def clampSpeed (s : ℝ) (v : Vec) : Vec :=
  if s * s < ls v then s • normalize v else v

/-- One agent of the flocking pass (main.rs lines 240-246): add the steering
output scaled by speed to the velocity, then clamp to speed. -/
def flockStep (id : ℕ) (vel pos : Vec) (boids : List Boid) (p : FlockParams) : Vec :=
  clampSpeed p.speed (vel + p.speed • calculate_flock_behaviour id vel pos boids p)

/-- Agent role: the Bird / Cat marker components. -/
inductive Role where
  | bird : Role
  | cat : Role
deriving DecidableEq

/-- One simulated agent: entity id, role marker, Velocity component and the
2D part of the Transform translation. -/
structure Agent where
  id : ℕ
  role : Role
  vel : Vec
  pos : Vec

/-- The snapshot built sequentially at the start of the flocking pass
(main.rs lines 235-238): (id, velocity, position) for every agent; the
query has no role filter. -/
def snapshot (w : List Agent) : List Boid :=
  w.map (fun a => (a.id, a.vel, a.pos))

/-- The whole flocking pass over the world (main.rs lines 234-247): every
agent with a Velocity and a Transform is updated, with no role filter. -/
def flockingWorld (w : List Agent) (p : FlockParams) : List Agent :=
  w.map (fun a => { a with vel := flockStep a.id a.vel a.pos (snapshot w) p })

/-- i32::MAX, the initial value of closest_dist in the hunting scan. -/
def i32MAX : ℤ := 2147483647

/-- The Rust cast `as i32` on a nonnegative real: truncation toward zero
(the floor, on nonnegative input), saturating at i32::MAX. -/
def castI32 (q : ℝ) : ℤ := min ⌊q⌋ i32MAX

/-- State of one predator scan: closest integer squared distance, offset to
the tracked prey, and the prey id recorded in the kill set, if any. -/
structure HState where
  dist : ℤ
  offset : Vec
  kill : Option ℕ

/-- The prey scan of the hunting pass (main.rs lines 206-223): walk the prey
snapshot keeping the smallest i32-cast squared distance and its offset;
whenever a new closest prey is set and its cast distance, recast to float,
is strictly below radius squared, record it in the kill set and break. -/
def huntScan (hp : HuntParams) (cpos : Vec) : List Prey → ℤ → Vec → HState
  | [], cd, co => ⟨cd, co, none⟩
  | (pid, ppos) :: rest, cd, co =>
    if castI32 (ls (ppos - cpos)) < cd then
      if (castI32 (ls (ppos - cpos)) : ℝ) < hp.radius * hp.radius then
        ⟨castI32 (ls (ppos - cpos)), ppos - cpos, some pid⟩
      else huntScan hp cpos rest (castI32 (ls (ppos - cpos))) (ppos - cpos)
    else huntScan hp cpos rest cd co

/-- The break-free closest-tracking fold: same distance measure and same
first-encountered-wins tie policy as huntScan, but never stopping early and
recording no kill.  Used to characterize huntScan. -/
def trackMin (cpos : Vec) : List Prey → ℤ → Vec → ℤ × Vec
  | [], cd, co => (cd, co)
  | (_, ppos) :: rest, cd, co =>
    if castI32 (ls (ppos - cpos)) < cd then
      trackMin cpos rest (castI32 (ls (ppos - cpos))) (ppos - cpos)
    else trackMin cpos rest cd co

/-- The scan as worded by the claim: track the closest prey by the exact
squared distance (ties broken by snapshot order), kill and stop when the
closest distance is strictly below radius squared.  Written from the claim
for comparison with huntScan, which is the embedding of the source. -/
def huntScanExact (hp : HuntParams) (cpos : Vec) : List Prey → ℝ → Vec → ℝ × Vec × Option ℕ
  | [], cd, co => (cd, co, none)
  | (pid, ppos) :: rest, cd, co =>
    if ls (ppos - cpos) < cd then
      if ls (ppos - cpos) < hp.radius * hp.radius then
        (ls (ppos - cpos), ppos - cpos, some pid)
      else huntScanExact hp cpos rest (ls (ppos - cpos)) (ppos - cpos)
    else huntScanExact hp cpos rest cd co

/-- The velocity update of the hunting pass (main.rs line 225):
velocity + normalize(closest_offset) * hunt_strength, with the NaN outcome
of normalizing the zero vector made explicit as none. -/
def huntVel (h : ℝ) (cvel offset : Vec) : Option Vec :=
  match normalizeRes offset with
  | none => none
  | some u => some (cvel + h • u)

/-- One predator of the hunting pass (main.rs lines 205-226): run the scan
from closest_dist = i32::MAX and closest_offset = zero, then update the
velocity from the tracked offset; also report the kill recorded, if any. -/
def huntPredator (hp : HuntParams) (cvel cpos : Vec) (prey : List Prey) :
    Option Vec × Option ℕ :=
  (huntVel hp.hunt_strength cvel (huntScan hp cpos prey i32MAX 0).offset,
   (huntScan hp cpos prey i32MAX 0).kill)

/-- One predator of the hunting system including the empty-prey early return
(main.rs lines 200-202): with no prey the pass is a no-op. -/
def huntStep (hp : HuntParams) (cvel cpos : Vec) (prey : List Prey) :
    Option Vec × Option ℕ :=
  if prey = [] then (some cvel, none) else huntPredator hp cvel cpos prey

/-- One coordinate of the boundary wrap (main.rs lines 316-319): strictly
beyond bound + padding snap to -bound; strictly below -bound - padding snap
to bound; otherwise unchanged. -/
def wrapCoord (bound pad x : ℝ) : ℝ :=
  if bound + pad < x then -bound
  else if x < -bound - pad then bound
  else x

/-- The boundary wrap of one agent (main.rs lines 315-320): the two axes are
wrapped independently. -/
def wrapAgent (bx bY pad : ℝ) (v : Vec) : Vec :=
  (wrapCoord bx pad v.1, wrapCoord bY pad v.2)

/-! ## Basic vector lemmas -/

lemma ls_nonneg (v : Vec) : 0 ≤ ls v :=
  add_nonneg (mul_self_nonneg _) (mul_self_nonneg _)

lemma ls_eq_zero_iff (v : Vec) : ls v = 0 ↔ v = 0 := by
  unfold ls
  constructor
  · intro h
    have h1 : v.1 = 0 := by nlinarith [mul_self_nonneg v.1, mul_self_nonneg v.2]
    have h2 : v.2 = 0 := by nlinarith [mul_self_nonneg v.1, mul_self_nonneg v.2]
    rw [Prod.ext_iff]
    exact ⟨by simpa using h1, by simpa using h2⟩
  · rintro rfl
    simp

lemma ls_smul (c : ℝ) (v : Vec) : ls (c • v) = c ^ 2 * ls v := by
  unfold ls
  simp only [Prod.smul_fst, Prod.smul_snd, smul_eq_mul]
  ring

lemma len_nonneg (v : Vec) : 0 ≤ len v := Real.sqrt_nonneg _

lemma len_sq (v : Vec) : len v ^ 2 = ls v := Real.sq_sqrt (ls_nonneg v)

lemma ls_pos (v : Vec) (h : v ≠ 0) : 0 < ls v :=
  lt_of_le_of_ne (ls_nonneg v) (fun e => h ((ls_eq_zero_iff v).mp e.symm))

lemma len_pos (v : Vec) (h : v ≠ 0) : 0 < len v := Real.sqrt_pos.mpr (ls_pos v h)

lemma len_smul (c : ℝ) (v : Vec) (h : 0 ≤ c) : len (c • v) = c * len v := by
  unfold len
  rw [ls_smul, Real.sqrt_mul (sq_nonneg c), Real.sqrt_sq h]

lemma ls_normalize (v : Vec) (h : v ≠ 0) : ls (normalize v) = 1 := by
  unfold normalize
  rw [ls_smul, div_pow, one_pow, len_sq]
  have h2 : ls v ≠ 0 := fun e => h ((ls_eq_zero_iff v).mp e)
  field_simp

lemma len_normalize (v : Vec) (h : v ≠ 0) : len (normalize v) = 1 := by
  unfold len
  rw [ls_normalize v h, Real.sqrt_one]

lemma normalize_smul_pos (c : ℝ) (v : Vec) (hc : 0 < c) (hv : v ≠ 0) :
    normalize (c • v) = normalize v := by
  unfold normalize
  rw [len_smul c v hc.le, smul_smul]
  congr 1
  have h1 : len v ≠ 0 := ne_of_gt (len_pos v hv)
  field_simp

lemma clampTo_len (v : Vec) (s : ℝ) (hs : 0 ≤ s) (h : 1 < ls v) :
    len (clampTo v s) = s := by
  have hv : v ≠ 0 := by
    intro e
    rw [e] at h
    norm_num [ls] at h
  unfold clampTo
  rw [if_pos h, len_smul s _ hs, len_normalize v hv, mul_one]

lemma len_clampSpeed_le (s : ℝ) (hs : 0 ≤ s) (v : Vec) : len (clampSpeed s v) ≤ s := by
  unfold clampSpeed
  by_cases h : s * s < ls v
  · rw [if_pos h]
    have hv : v ≠ 0 := by
      intro e
      rw [e] at h
      norm_num [ls] at h
      nlinarith [mul_self_nonneg s]
    rw [len_smul s _ hs, len_normalize v hv, mul_one]
  · rw [if_neg h]
    have h2 : ls v ≤ s ^ 2 := by rw [sq]; exact not_lt.mp h
    calc len v = Real.sqrt (ls v) := rfl
      _ ≤ Real.sqrt (s ^ 2) := Real.sqrt_le_sqrt h2
      _ = s := Real.sqrt_sq hs

/-! ## Steering-loop lemmas -/

lemma flockAccum_isolated (id : ℕ) (pos : Vec) (p : FlockParams) :
    ∀ (boids : List Boid),
      (∀ b ∈ boids, b.1 ≠ id → p.radius * p.radius < ls (pos - b.2.2)) →
      ∀ acc : Acc, flockAccum id pos p boids acc = acc := by
  intro boids
  induction boids with
  | nil => intro _ acc; rfl
  | cons b rest ih =>
    obtain ⟨oid, ovel, opos⟩ := b
    intro h acc
    have hrest : ∀ b ∈ rest, b.1 ≠ id → p.radius * p.radius < ls (pos - b.2.2) :=
      fun b hb => h b (List.mem_cons_of_mem _ hb)
    by_cases hid : oid = id
    · simp only [flockAccum, if_pos hid]
      exact ih hrest acc
    · have hout : p.radius * p.radius < ls (pos - opos) :=
        h (oid, ovel, opos) (List.mem_cons_self _ _) hid
      simp only [flockAccum, if_neg hid, if_pos hout]
      exact ih hrest acc

lemma calc_isolated (id : ℕ) (velocity pos : Vec) (boids : List Boid) (p : FlockParams)
    (h : ∀ b ∈ boids, b.1 ≠ id → p.radius * p.radius < ls (pos - b.2.2)) :
    calculate_flock_behaviour id velocity pos boids p = velocity := by
  unfold calculate_flock_behaviour
  rw [flockAccum_isolated id pos p boids h ⟨0, 0, 0, 0⟩]
  simp

/-! ## Claim theorems: steering and wrap -/

/-- C2, counterexample: the source clamps a steering component when its
squared length exceeds 1, not when it exceeds the strength coefficient
squared.  With strength 3/2 and the vector (1,1) of squared length 2, the
claimed clamp leaves the vector unchanged (2 < 9/4), while the source
renormalizes it. -/
theorem claim_C2_counterexample :
    clampToSpec ((1 : ℝ), (1 : ℝ)) (3 / 2) = ((1 : ℝ), (1 : ℝ)) ∧
    clampTo ((1 : ℝ), (1 : ℝ)) (3 / 2) ≠ ((1 : ℝ), (1 : ℝ)) := by
  constructor
  · unfold clampToSpec
    rw [if_neg (by norm_num [ls])]
  · intro h
    have h1 : 1 < ls ((1 : ℝ), (1 : ℝ)) := by norm_num [ls]
    have h2 : len (clampTo ((1 : ℝ), (1 : ℝ)) (3 / 2)) = 3 / 2 :=
      clampTo_len _ _ (by norm_num) h1
    rw [h] at h2
    have h4 : len ((1 : ℝ), (1 : ℝ)) = Real.sqrt 2 := by
      unfold len
      norm_num [ls]
    rw [h4] at h2
    have h5 := Real.sq_sqrt (by norm_num : (0 : ℝ) ≤ 2)
    rw [h2] at h5
    norm_num at h5

/-- C2, amended: in the steering computation each of alignment, cohesion,
avoidance and gravity is clamped independently AFTER strength scaling and
averaging, against the fixed threshold 1: if the squared length of the
component exceeds 1 it is renormalized to exactly the magnitude of its
strength coefficient, otherwise it is left unchanged; and with at least one
neighbor the steering output is the sum of the four independently clamped
components. -/
theorem claim_C2_clamp_amended (v : Vec) (s : ℝ) (id : ℕ) (velocity pos : Vec)
    (boids : List Boid) (p : FlockParams) (hs : 0 ≤ s)
    (hn : (flockAccum id pos p boids ⟨0, 0, 0, 0⟩).n ≠ 0) :
    (1 < ls v → clampTo v s = s • normalize v ∧ len (clampTo v s) = s) ∧
    (¬ 1 < ls v → clampTo v s = v) ∧
    calculate_flock_behaviour id velocity pos boids p =
      clampTo (preAlign p (flockAccum id pos p boids ⟨0, 0, 0, 0⟩)) p.alignment_strength +
      clampTo (preCohesion p pos (flockAccum id pos p boids ⟨0, 0, 0, 0⟩)) p.cohesion_strength +
      clampTo (preAvoid p (flockAccum id pos p boids ⟨0, 0, 0, 0⟩)) p.avoidance_strength +
      clampTo (gravityVec p pos) p.gravity_strength := by
  refine ⟨?_, ?_, ?_⟩
  · intro h
    exact ⟨by unfold clampTo; rw [if_pos h], clampTo_len v s hs h⟩
  · intro h
    unfold clampTo
    rw [if_neg h]
  · unfold calculate_flock_behaviour
    rw [if_neg hn]

/-- C2, witness for the amended theorem: strength 2 on the vector (3,4) of
squared length 25, and a one-neighbor configuration. -/
theorem claim_C2_clamp_amended_witness :
    ((0 : ℝ) ≤ 2 ∧
      (flockAccum 0 ((0 : ℝ), (0 : ℝ)) ⟨1, 1, 1, 1, 1, 10, 5⟩
        [(1, ((1 : ℝ), (0 : ℝ)), ((1 : ℝ), (0 : ℝ)))] ⟨0, 0, 0, 0⟩).n ≠ 0) ∧
    (1 < ls ((3 : ℝ), (4 : ℝ)) →
      clampTo ((3 : ℝ), (4 : ℝ)) 2 = (2 : ℝ) • normalize ((3 : ℝ), (4 : ℝ)) ∧
      len (clampTo ((3 : ℝ), (4 : ℝ)) 2) = 2) := by
  have hn : (flockAccum 0 ((0 : ℝ), (0 : ℝ)) ⟨1, 1, 1, 1, 1, 10, 5⟩
      [(1, ((1 : ℝ), (0 : ℝ)), ((1 : ℝ), (0 : ℝ)))] ⟨0, 0, 0, 0⟩).n ≠ 0 := by
    norm_num [flockAccum, ls]
  exact ⟨⟨by norm_num, hn⟩,
    (claim_C2_clamp_amended ((3 : ℝ), (4 : ℝ)) 2 0 0 ((0 : ℝ), (0 : ℝ))
      [(1, ((1 : ℝ), (0 : ℝ)), ((1 : ℝ), (0 : ℝ)))] ⟨1, 1, 1, 1, 1, 10, 5⟩
      (by norm_num) hn).1⟩

/-- C4, counterexample: a coordinate exactly at bound + padding is NOT
wrapped to -bound: the wrap conditions are strict inequalities, so with
bound = 1 and padding = 1 the coordinate 1 + 1 is left unchanged instead of
being mapped to -1. -/
theorem claim_C4_counterexample :
    wrapCoord 1 1 (1 + 1) = 1 + 1 ∧ wrapCoord 1 1 (1 + 1) ≠ -1 := by
  constructor
  · unfold wrapCoord
    rw [if_neg (by norm_num), if_neg (by norm_num)]
  · unfold wrapCoord
    rw [if_neg (by norm_num), if_neg (by norm_num)]
    norm_num

/-- C4, amended: the wrap fires only strictly beyond bound + padding, so an
agent whose coordinate is exactly bound + padding is left unchanged
(for nonnegative bound and padding), and any agent whose coordinates lie in
the closed box [-bound - padding, bound + padding] on both axes is left
completely unchanged. -/
theorem claim_C4_wrap_amended (bx bY pad : ℝ) (v : Vec)
    (hbx : 0 ≤ bx) (hpad : 0 ≤ pad)
    (h1 : -bx - pad ≤ v.1) (h2 : v.1 ≤ bx + pad)
    (h3 : -bY - pad ≤ v.2) (h4 : v.2 ≤ bY + pad) :
    wrapCoord bx pad (bx + pad) = bx + pad ∧ wrapAgent bx bY pad v = v := by
  constructor
  · unfold wrapCoord
    rw [if_neg (lt_irrefl _), if_neg (by intro h; linarith)]
  · unfold wrapAgent wrapCoord
    rw [if_neg (not_lt.mpr h2), if_neg (not_lt.mpr h1),
      if_neg (not_lt.mpr h4), if_neg (not_lt.mpr h3)]

/-- C4, witness for the amended theorem: bound 1, padding 1, agent at
(2, -2), the corner of the closed box. -/
theorem claim_C4_wrap_amended_witness :
    ((0 : ℝ) ≤ 1 ∧ (0 : ℝ) ≤ 1 ∧
      -(1 : ℝ) - 1 ≤ ((2 : ℝ), (-2 : ℝ)).1 ∧ ((2 : ℝ), (-2 : ℝ)).1 ≤ 1 + 1 ∧
      -(1 : ℝ) - 1 ≤ ((2 : ℝ), (-2 : ℝ)).2 ∧ ((2 : ℝ), (-2 : ℝ)).2 ≤ 1 + 1) ∧
    wrapCoord 1 1 (1 + 1) = 1 + 1 ∧ wrapAgent 1 1 1 ((2 : ℝ), (-2 : ℝ)) = ((2 : ℝ), (-2 : ℝ)) :=
  ⟨⟨by norm_num, by norm_num, by norm_num, by norm_num, by norm_num, by norm_num⟩,
    claim_C4_wrap_amended 1 1 1 ((2 : ℝ), (-2 : ℝ)) (by norm_num) (by norm_num)
      (by norm_num) (by norm_num) (by norm_num) (by norm_num)⟩

/-- C5: for an agent with no other snapshot entry within the neighbor
radius of its position, the steering function returns the current velocity
unchanged. -/
theorem claim_C5_isolated (id : ℕ) (velocity pos : Vec) (boids : List Boid)
    (p : FlockParams)
    (h : ∀ b ∈ boids, b.1 ≠ id → p.radius * p.radius < ls (pos - b.2.2)) :
    calculate_flock_behaviour id velocity pos boids p = velocity :=
  calc_isolated id velocity pos boids p h

/-- C5, witness: one snapshot entry far outside the radius; steering returns
the velocity (2,3) unchanged. -/
theorem claim_C5_isolated_witness :
    (∀ b ∈ [((1 : ℕ), ((5 : ℝ), (5 : ℝ)), ((9 : ℝ), (9 : ℝ)))], b.1 ≠ 0 →
      (⟨1, 1, 1, 1, 1, 1, 1⟩ : FlockParams).radius * (⟨1, 1, 1, 1, 1, 1, 1⟩ : FlockParams).radius <
        ls (((0 : ℝ), (0 : ℝ)) - b.2.2)) ∧
    calculate_flock_behaviour 0 ((2 : ℝ), (3 : ℝ)) ((0 : ℝ), (0 : ℝ))
      [((1 : ℕ), ((5 : ℝ), (5 : ℝ)), ((9 : ℝ), (9 : ℝ)))] ⟨1, 1, 1, 1, 1, 1, 1⟩ = ((2 : ℝ), (3 : ℝ)) := by
  have h : ∀ b ∈ [((1 : ℕ), ((5 : ℝ), (5 : ℝ)), ((9 : ℝ), (9 : ℝ)))], b.1 ≠ 0 →
      (⟨1, 1, 1, 1, 1, 1, 1⟩ : FlockParams).radius * (⟨1, 1, 1, 1, 1, 1, 1⟩ : FlockParams).radius <
        ls (((0 : ℝ), (0 : ℝ)) - b.2.2) := by
    intro b hb hne
    simp only [List.mem_singleton] at hb
    subst hb
    norm_num [ls]
  exact ⟨h, claim_C5_isolated 0 _ _ _ _ h⟩

/-- C6: after the flocking pass the velocity magnitude of every agent is at
most the speed parameter, for any starting velocity, both for a single
agent step and for every agent of the updated world. -/
theorem claim_C6_speed_clamp (id : ℕ) (vel pos : Vec) (boids : List Boid)
    (w : List Agent) (p : FlockParams) (hs : 0 ≤ p.speed) :
    len (flockStep id vel pos boids p) ≤ p.speed ∧
    ∀ a ∈ flockingWorld w p, len a.vel ≤ p.speed := by
  refine ⟨len_clampSpeed_le p.speed hs _, ?_⟩
  intro a ha
  simp only [flockingWorld, List.mem_map] at ha
  obtain ⟨b, hb, rfl⟩ := ha
  exact len_clampSpeed_le p.speed hs _

/-- C6, witness: speed 2, a lone agent with zero state. -/
theorem claim_C6_speed_clamp_witness :
    ((0 : ℝ) ≤ (⟨1, 1, 1, 1, 2, 1, 1⟩ : FlockParams).speed) ∧
    (len (flockStep 0 ((0 : ℝ), (0 : ℝ)) ((0 : ℝ), (0 : ℝ)) [] ⟨1, 1, 1, 1, 2, 1, 1⟩) ≤
        (⟨1, 1, 1, 1, 2, 1, 1⟩ : FlockParams).speed ∧
      ∀ a ∈ flockingWorld [] ⟨1, 1, 1, 1, 2, 1, 1⟩, len a.vel ≤
        (⟨1, 1, 1, 1, 2, 1, 1⟩ : FlockParams).speed) :=
  ⟨by norm_num, claim_C6_speed_clamp 0 ((0 : ℝ), (0 : ℝ)) ((0 : ℝ), (0 : ℝ)) [] []
    ⟨1, 1, 1, 1, 2, 1, 1⟩ (by norm_num)⟩

/-- C7: on every input, either the neighbor count is zero and the steering
function returns at the early-return guard with the velocity unchanged, or
the count is at least one and the function returns the combination whose
divisor, the neighbor count cast to the reals, is nonzero: the divisions
are unreachable with a zero divisor. -/
theorem claim_C7_division_guard (id : ℕ) (velocity pos : Vec) (boids : List Boid)
    (p : FlockParams) :
    ((flockAccum id pos p boids ⟨0, 0, 0, 0⟩).n = 0 ∧
      calculate_flock_behaviour id velocity pos boids p = velocity) ∨
    (1 ≤ (flockAccum id pos p boids ⟨0, 0, 0, 0⟩).n ∧
      ((flockAccum id pos p boids ⟨0, 0, 0, 0⟩).n : ℝ) ≠ 0 ∧
      calculate_flock_behaviour id velocity pos boids p =
        clampTo (preAlign p (flockAccum id pos p boids ⟨0, 0, 0, 0⟩)) p.alignment_strength +
        clampTo (preCohesion p pos (flockAccum id pos p boids ⟨0, 0, 0, 0⟩)) p.cohesion_strength +
        clampTo (preAvoid p (flockAccum id pos p boids ⟨0, 0, 0, 0⟩)) p.avoidance_strength +
        clampTo (gravityVec p pos) p.gravity_strength) := by
  by_cases h : (flockAccum id pos p boids ⟨0, 0, 0, 0⟩).n = 0
  · left
    refine ⟨h, ?_⟩
    unfold calculate_flock_behaviour
    rw [if_pos h]
  · right
    refine ⟨Nat.one_le_iff_ne_zero.mpr h, Nat.cast_ne_zero.mpr h, ?_⟩
    unfold calculate_flock_behaviour
    rw [if_neg h]

/-- C8: for an agent with zero neighbors the flocking pass scales the old
velocity by (1 + speed) and clamps the magnitude to speed: the post
velocity is a nonnegative scalar multiple of the prior velocity and its
magnitude is min(|v| * (1 + speed), speed). -/
theorem claim_C8_isolated_step (id : ℕ) (vel pos : Vec) (boids : List Boid)
    (p : FlockParams)
    (hz : ∀ b ∈ boids, b.1 ≠ id → p.radius * p.radius < ls (pos - b.2.2))
    (hs : 0 ≤ p.speed) :
    ∃ c : ℝ, 0 ≤ c ∧ flockStep id vel pos boids p = c • vel ∧
      len (flockStep id vel pos boids p) = min (len vel * (1 + p.speed)) p.speed := by
  have hc := calc_isolated id vel pos boids p hz
  have hv1 : vel + p.speed • calculate_flock_behaviour id vel pos boids p
      = (1 + p.speed) • vel := by
    rw [hc, add_smul, one_smul]
  unfold flockStep
  rw [hv1]
  have hs1 : (0 : ℝ) ≤ 1 + p.speed := by linarith
  have hlen1 : len ((1 + p.speed) • vel) = (1 + p.speed) * len vel := len_smul _ _ hs1
  have hls1 : ls ((1 + p.speed) • vel) = ((1 + p.speed) * len vel) ^ 2 := by
    rw [← len_sq ((1 + p.speed) • vel), hlen1]
  unfold clampSpeed
  by_cases h : p.speed * p.speed < ls ((1 + p.speed) • vel)
  · rw [if_pos h]
    have hvne : vel ≠ 0 := by
      intro e
      rw [e, smul_zero] at h
      norm_num [ls] at h
      nlinarith [mul_self_nonneg p.speed]
    have h1s : (0 : ℝ) < 1 + p.speed := by linarith
    have hlenv : (0 : ℝ) < len vel := len_pos vel hvne
    rw [normalize_smul_pos _ _ h1s hvne]
    refine ⟨p.speed / len vel, div_nonneg hs hlenv.le, ?_, ?_⟩
    · unfold normalize
      rw [smul_smul]
      congr 1
      field_simp
    · rw [len_smul p.speed _ hs, len_normalize vel hvne, mul_one]
      have hnn : 0 ≤ (1 + p.speed) * len vel := mul_nonneg hs1 hlenv.le
      have hlt : p.speed < (1 + p.speed) * len vel := by
        refine lt_of_pow_lt_pow_left₀ 2 hnn ?_
        rw [← hls1]
        nlinarith [h]
      rw [min_eq_right (by nlinarith [hlt] : p.speed ≤ len vel * (1 + p.speed))]
  · rw [if_neg h]
    refine ⟨1 + p.speed, hs1, rfl, ?_⟩
    rw [hlen1]
    have hle : len vel * (1 + p.speed) ≤ p.speed := by
      have h2 : ((1 + p.speed) * len vel) ^ 2 ≤ p.speed ^ 2 := by
        rw [← hls1]
        nlinarith [not_lt.mp h]
      nlinarith [le_of_pow_le_pow_left₀ (two_ne_zero) hs h2]
    rw [min_eq_left hle, mul_comm]

/-- C8, witness: an isolated agent with velocity (3,4) of length 5 and
speed 1: the step scales toward (6,8) and clamps back to length 1. -/
theorem claim_C8_isolated_step_witness :
    ((∀ b ∈ ([] : List Boid), b.1 ≠ 0 →
        (⟨1, 1, 1, 1, 1, 1, 1⟩ : FlockParams).radius * (⟨1, 1, 1, 1, 1, 1, 1⟩ : FlockParams).radius <
          ls (((0 : ℝ), (0 : ℝ)) - b.2.2)) ∧
      (0 : ℝ) ≤ (⟨1, 1, 1, 1, 1, 1, 1⟩ : FlockParams).speed) ∧
    ∃ c : ℝ, 0 ≤ c ∧
      flockStep 0 ((3 : ℝ), (4 : ℝ)) ((0 : ℝ), (0 : ℝ)) [] ⟨1, 1, 1, 1, 1, 1, 1⟩ = c • ((3 : ℝ), (4 : ℝ)) ∧
      len (flockStep 0 ((3 : ℝ), (4 : ℝ)) ((0 : ℝ), (0 : ℝ)) [] ⟨1, 1, 1, 1, 1, 1, 1⟩) =
        min (len ((3 : ℝ), (4 : ℝ)) * (1 + (⟨1, 1, 1, 1, 1, 1, 1⟩ : FlockParams).speed))
          (⟨1, 1, 1, 1, 1, 1, 1⟩ : FlockParams).speed :=
  ⟨⟨fun b hb => absurd hb (List.not_mem_nil b), by norm_num⟩,
    claim_C8_isolated_step 0 ((3 : ℝ), (4 : ℝ)) ((0 : ℝ), (0 : ℝ)) [] ⟨1, 1, 1, 1, 1, 1, 1⟩
      (fun b hb => absurd hb (List.not_mem_nil b)) (by norm_num)⟩

/-- C9: the flocking pass is role-blind: every agent, predator or prey,
appears in the snapshot; every agent, predator or prey, is updated by the
same flocking step against that snapshot; roles are untouched and have no
influence on the pass; and every updated agent, in particular every
predator, has velocity magnitude clamped to the speed parameter. -/
theorem claim_C9_role_blind (w : List Agent) (p : FlockParams) (hs : 0 ≤ p.speed) :
    (∀ a ∈ w, ((a.id, a.vel, a.pos) : Boid) ∈ snapshot w) ∧
    (∀ a ∈ w, ({ a with vel := flockStep a.id a.vel a.pos (snapshot w) p }) ∈ flockingWorld w p) ∧
    ((flockingWorld w p).map Agent.role = w.map Agent.role) ∧
    (∀ r : Role, flockingWorld (w.map (fun a => { a with role := r })) p =
      (flockingWorld w p).map (fun a => { a with role := r })) ∧
    (∀ a ∈ flockingWorld w p, len a.vel ≤ p.speed) := by
  refine ⟨?_, ?_, ?_, ?_, ?_⟩
  · intro a ha
    exact List.mem_map_of_mem _ ha
  · intro a ha
    exact List.mem_map_of_mem _ ha
  · simp only [flockingWorld, List.map_map]
    rfl
  · intro r
    have hsnap : snapshot (w.map (fun a => { a with role := r })) = snapshot w := by
      simp only [snapshot, List.map_map]
      rfl
    simp only [flockingWorld, hsnap, List.map_map]
    rfl
  · intro a ha
    simp only [flockingWorld, List.mem_map] at ha
    obtain ⟨b, hb, rfl⟩ := ha
    exact len_clampSpeed_le p.speed hs _

/-- C9, witness: a world holding one predator, speed 1. -/
theorem claim_C9_role_blind_witness :
    ((0 : ℝ) ≤ (⟨1, 1, 1, 1, 1, 1, 1⟩ : FlockParams).speed) ∧
    (∀ a ∈ flockingWorld [⟨0, Role.cat, ((0 : ℝ), (0 : ℝ)), ((0 : ℝ), (0 : ℝ))⟩]
        ⟨1, 1, 1, 1, 1, 1, 1⟩,
      len a.vel ≤ (⟨1, 1, 1, 1, 1, 1, 1⟩ : FlockParams).speed) :=
  ⟨by norm_num,
    (claim_C9_role_blind [⟨0, Role.cat, ((0 : ℝ), (0 : ℝ)), ((0 : ℝ), (0 : ℝ))⟩]
      ⟨1, 1, 1, 1, 1, 1, 1⟩ (by norm_num)).2.2.2.2⟩

/-! ## Hunting-scan lemmas -/

lemma huntScan_kill_none (hp : HuntParams) (cpos : Vec) :
    ∀ (l : List Prey) (cd : ℤ) (co : Vec),
      (huntScan hp cpos l cd co).kill = none →
      huntScan hp cpos l cd co =
        ⟨(trackMin cpos l cd co).1, (trackMin cpos l cd co).2, none⟩ := by
  intro l
  induction l with
  | nil => intro cd co _; rfl
  | cons q rest ih =>
    obtain ⟨pid, ppos⟩ := q
    intro cd co hk
    by_cases h1 : castI32 (ls (ppos - cpos)) < cd
    · by_cases h2 : ((castI32 (ls (ppos - cpos)) : ℝ)) < hp.radius * hp.radius
      · exfalso
        simp only [huntScan, if_pos h1, if_pos h2] at hk
        exact Option.some_ne_none _ hk
      · simp only [huntScan, if_pos h1, if_neg h2] at hk ⊢
        simp only [trackMin, if_pos h1]
        exact ih _ _ hk
    · simp only [huntScan, if_neg h1] at hk ⊢
      simp only [trackMin, if_neg h1]
      exact ih _ _ hk

lemma huntScan_kill_some (hp : HuntParams) (cpos : Vec) :
    ∀ (l : List Prey) (cd : ℤ) (co : Vec) (pid : ℕ),
      (huntScan hp cpos l cd co).kill = some pid →
      ∃ l1 ppos l2, l = l1 ++ (pid, ppos) :: l2 ∧
        (huntScan hp cpos l1 cd co).kill = none ∧
        castI32 (ls (ppos - cpos)) < (huntScan hp cpos l1 cd co).dist ∧
        ((castI32 (ls (ppos - cpos)) : ℝ)) < hp.radius * hp.radius ∧
        huntScan hp cpos l cd co = ⟨castI32 (ls (ppos - cpos)), ppos - cpos, some pid⟩ := by
  intro l
  induction l with
  | nil =>
    intro cd co pid hk
    exact absurd hk (by simp [huntScan])
  | cons q rest ih =>
    obtain ⟨qid, qpos⟩ := q
    intro cd co pid hk
    by_cases h1 : castI32 (ls (qpos - cpos)) < cd
    · by_cases h2 : ((castI32 (ls (qpos - cpos)) : ℝ)) < hp.radius * hp.radius
      · simp only [huntScan, if_pos h1, if_pos h2] at hk
        have hq : qid = pid := by simpa using hk
        subst hq
        refine ⟨[], qpos, rest, rfl, rfl, ?_, h2, ?_⟩
        · simpa [huntScan] using h1
        · simp only [huntScan, if_pos h1, if_pos h2]
      · simp only [huntScan, if_pos h1, if_neg h2] at hk ⊢
        obtain ⟨l1, ppos, l2, heq, hnone, hlt, hrad, hres⟩ := ih _ _ _ hk
        refine ⟨(qid, qpos) :: l1, ppos, l2, by rw [heq, List.cons_append], ?_, ?_, hrad, hres⟩
        · simp only [huntScan, if_pos h1, if_neg h2]
          exact hnone
        · simp only [huntScan, if_pos h1, if_neg h2]
          exact hlt
    · simp only [huntScan, if_neg h1] at hk ⊢
      obtain ⟨l1, ppos, l2, heq, hnone, hlt, hrad, hres⟩ := ih _ _ _ hk
      refine ⟨(qid, qpos) :: l1, ppos, l2, by rw [heq, List.cons_append], ?_, ?_, hrad, hres⟩
      · simp only [huntScan, if_neg h1]
        exact hnone
      · simp only [huntScan, if_neg h1]
        exact hlt

/-! ## Claim theorems: hunting -/

/-- C1: the hunting velocity update does propagate NaN when the predator is
exactly atop its closest prey.  With predator and prey both at the origin
the tracked closest_offset is the zero vector, glam normalize divides by a
zero length, and the updated predator velocity has NaN components, recorded
as none by the embedding. -/
theorem claim_C1_zero_offset_nan :
    (huntStep ⟨2, 60⟩ (0 : Vec) (0 : Vec) [(3, (0 : Vec))]).1 = none := by
  have h0 : ((0 : Vec) - (0 : Vec)) = (0 : Vec) := sub_zero 0
  have hc : castI32 (ls (0 : Vec)) = 0 := by
    unfold castI32
    norm_num [ls, i32MAX]
  have hscan : huntScan ⟨2, 60⟩ (0 : Vec) [(3, (0 : Vec))] i32MAX 0 = ⟨0, 0, some 3⟩ := by
    simp only [huntScan, h0, hc]
    rw [if_pos (by norm_num [i32MAX]), if_pos (by norm_num)]
  unfold huntStep
  rw [if_neg (List.cons_ne_nil _ _)]
  unfold huntPredator huntVel
  rw [hscan]
  simp [normalizeRes]

/-- C3, counterexample: the scan does not track the closest prey by exact
squared distance.  Predator at the origin, first prey with exact squared
distance 58/16, second with the strictly smaller 225/64; both truncate to 3,
so the source scan keeps the first prey while the scan described by the
claim selects the second. -/
theorem claim_C3_counterexample :
    (huntScanExact ⟨2, 1⟩ 0 [(1, ((7 / 4 : ℝ), (3 / 4 : ℝ))), (2, ((15 / 8 : ℝ), (0 : ℝ)))]
        (i32MAX : ℝ) 0).2.1 = ((15 / 8 : ℝ), (0 : ℝ)) ∧
    (huntScan ⟨2, 1⟩ 0 [(1, ((7 / 4 : ℝ), (3 / 4 : ℝ))), (2, ((15 / 8 : ℝ), (0 : ℝ)))]
        i32MAX 0).offset = ((7 / 4 : ℝ), (3 / 4 : ℝ)) ∧
    (((7 / 4 : ℝ), (3 / 4 : ℝ)) : Vec) ≠ ((15 / 8 : ℝ), (0 : ℝ)) := by
  have e1 : ls (((7 / 4 : ℝ), (3 / 4 : ℝ)) - (0 : Vec)) = 58 / 16 := by
    norm_num [ls, Prod.fst_sub, Prod.snd_sub]
  have e2 : ls (((15 / 8 : ℝ), (0 : ℝ)) - (0 : Vec)) = 225 / 64 := by
    norm_num [ls, Prod.fst_sub, Prod.snd_sub]
  have c1 : castI32 (ls (((7 / 4 : ℝ), (3 / 4 : ℝ)) - (0 : Vec))) = 3 := by
    rw [e1]
    unfold castI32
    rw [show ⌊(58 / 16 : ℝ)⌋ = 3 by rw [Int.floor_eq_iff]; norm_num]
    norm_num [i32MAX]
  have c2 : castI32 (ls (((15 / 8 : ℝ), (0 : ℝ)) - (0 : Vec))) = 3 := by
    rw [e2]
    unfold castI32
    rw [show ⌊(225 / 64 : ℝ)⌋ = 3 by rw [Int.floor_eq_iff]; norm_num]
    norm_num [i32MAX]
  refine ⟨?_, ?_, ?_⟩
  · simp only [huntScanExact, e1, e2]
    rw [if_pos (by norm_num [i32MAX]), if_neg (by norm_num),
      if_pos (by norm_num), if_neg (by norm_num)]
    simp
  · simp only [huntScan, c1, c2]
    rw [if_pos (by norm_num [i32MAX]), if_neg (by norm_num),
      if_neg (lt_irrefl _)]
    simp
  · intro h
    rw [Prod.ext_iff] at h
    norm_num at h

/-- C3, amended: the hunting scan tracks the closest-so-far prey by the
i32-TRUNCATED squared distance, ties broken by snapshot order with the
first encountered winning (strict less-than on the truncated distance);
the first time a newly tracked closest prey has truncated squared distance
strictly below kill_radius squared, that prey id is recorded for the kill
set and the scan stops; and whenever the tracked offset is nonzero the
predator velocity becomes velocity + hunt_strength * normalize(offset),
whether or not a kill was recorded. -/
theorem claim_C3_hunt_amended (hp : HuntParams) (cvel cpos : Vec) (prey : List Prey) :
    ((huntScan hp cpos prey i32MAX 0).kill = none →
      (huntScan hp cpos prey i32MAX 0).dist = (trackMin cpos prey i32MAX 0).1 ∧
      (huntScan hp cpos prey i32MAX 0).offset = (trackMin cpos prey i32MAX 0).2) ∧
    (∀ pid : ℕ, (huntScan hp cpos prey i32MAX 0).kill = some pid →
      ∃ l1 ppos l2, prey = l1 ++ (pid, ppos) :: l2 ∧
        (huntScan hp cpos l1 i32MAX 0).kill = none ∧
        castI32 (ls (ppos - cpos)) < (huntScan hp cpos l1 i32MAX 0).dist ∧
        ((castI32 (ls (ppos - cpos)) : ℝ)) < hp.radius * hp.radius ∧
        (huntScan hp cpos prey i32MAX 0).dist = castI32 (ls (ppos - cpos)) ∧
        (huntScan hp cpos prey i32MAX 0).offset = ppos - cpos) ∧
    (prey ≠ [] → (huntScan hp cpos prey i32MAX 0).offset ≠ 0 →
      (huntStep hp cvel cpos prey).1 =
        some (cvel + hp.hunt_strength • normalize (huntScan hp cpos prey i32MAX 0).offset)) := by
  refine ⟨?_, ?_, ?_⟩
  · intro hk
    have h := huntScan_kill_none hp cpos prey i32MAX 0 hk
    rw [h]
    exact ⟨rfl, rfl⟩
  · intro pid hk
    obtain ⟨l1, ppos, l2, heq, hnone, hlt, hrad, hres⟩ :=
      huntScan_kill_some hp cpos prey i32MAX 0 pid hk
    exact ⟨l1, ppos, l2, heq, hnone, hlt, hrad, by rw [hres], by rw [hres]⟩
  · intro hne hoff
    unfold huntStep
    rw [if_neg hne]
    unfold huntPredator huntVel normalizeRes
    rw [if_neg hoff]

/-- C3, witness for the amended theorem: predator at the origin, one prey at
(3,4), kill radius 60: the prey is tracked at truncated distance 25, killed,
and the velocity update follows the tracked offset. -/
theorem claim_C3_hunt_amended_witness :
    (huntScan ⟨2, 60⟩ (0 : Vec) [(5, ((3 : ℝ), (4 : ℝ)))] i32MAX 0).kill = some 5 ∧
    (∃ l1 ppos l2, [(5, ((3 : ℝ), (4 : ℝ)))] = l1 ++ (5, ppos) :: l2 ∧
      (huntScan (⟨2, 60⟩ : HuntParams) (0 : Vec) l1 i32MAX 0).kill = none ∧
      castI32 (ls (ppos - (0 : Vec))) < (huntScan (⟨2, 60⟩ : HuntParams) (0 : Vec) l1 i32MAX 0).dist ∧
      ((castI32 (ls (ppos - (0 : Vec))) : ℝ)) <
        (⟨2, 60⟩ : HuntParams).radius * (⟨2, 60⟩ : HuntParams).radius ∧
      (huntScan ⟨2, 60⟩ (0 : Vec) [(5, ((3 : ℝ), (4 : ℝ)))] i32MAX 0).dist = castI32 (ls (ppos - (0 : Vec))) ∧
      (huntScan ⟨2, 60⟩ (0 : Vec) [(5, ((3 : ℝ), (4 : ℝ)))] i32MAX 0).offset = ppos - (0 : Vec)) ∧
    ([(5, ((3 : ℝ), (4 : ℝ)))] ≠ ([] : List Prey)) ∧
    ((huntScan ⟨2, 60⟩ (0 : Vec) [(5, ((3 : ℝ), (4 : ℝ)))] i32MAX 0).offset ≠ 0) ∧
    (huntStep ⟨2, 60⟩ (0 : Vec) (0 : Vec) [(5, ((3 : ℝ), (4 : ℝ)))]).1 =
      some ((0 : Vec) + (⟨2, 60⟩ : HuntParams).hunt_strength •
        normalize (huntScan ⟨2, 60⟩ (0 : Vec) [(5, ((3 : ℝ), (4 : ℝ)))] i32MAX 0).offset) := by
  have e1 : ls (((3 : ℝ), (4 : ℝ)) - (0 : Vec)) = 25 := by
    norm_num [ls, Prod.fst_sub, Prod.snd_sub]
  have c1 : castI32 (ls (((3 : ℝ), (4 : ℝ)) - (0 : Vec))) = 25 := by
    rw [e1]
    unfold castI32
    rw [show ⌊(25 : ℝ)⌋ = 25 by norm_num]
    norm_num [i32MAX]
  have hscan : huntScan ⟨2, 60⟩ (0 : Vec) [(5, ((3 : ℝ), (4 : ℝ)))] i32MAX 0 =
      ⟨25, ((3 : ℝ), (4 : ℝ)) - (0 : Vec), some 5⟩ := by
    simp only [huntScan, c1]
    rw [if_pos (by norm_num [i32MAX]), if_pos (by norm_num)]
  have hkill : (huntScan ⟨2, 60⟩ (0 : Vec) [(5, ((3 : ℝ), (4 : ℝ)))] i32MAX 0).kill = some 5 := by
    rw [hscan]
  have hoff : (huntScan ⟨2, 60⟩ (0 : Vec) [(5, ((3 : ℝ), (4 : ℝ)))] i32MAX 0).offset ≠ 0 := by
    rw [hscan]
    intro h
    rw [Prod.ext_iff] at h
    norm_num [Prod.fst_sub, Prod.snd_sub] at h
  refine ⟨hkill, ?_, by simp, hoff, ?_⟩
  · exact (claim_C3_hunt_amended ⟨2, 60⟩ (0 : Vec) (0 : Vec) [(5, ((3 : ℝ), (4 : ℝ)))]).2.1 5 hkill
  · exact (claim_C3_hunt_amended ⟨2, 60⟩ (0 : Vec) (0 : Vec) [(5, ((3 : ℝ), (4 : ℝ)))]).2.2
      (by simp) hoff

/-- C10: the scan compares i32-truncated squared distances: with a prey at
exact squared distance 5/2 followed by one at the strictly smaller 9/4,
both truncate to 2 and the later, closer prey is not selected; and the kill
decision tests the truncated distance against kill_radius squared: with
kill radius 3/2 and a prey at exact squared distance 229/100 > 9/4, the
truncated distance 2 < 9/4 records a kill anyway. -/
theorem claim_C10_truncation :
    (huntScan ⟨2, 1⟩ 0 [(1, ((3 / 2 : ℝ), (1 / 2 : ℝ))), (2, ((3 / 2 : ℝ), (0 : ℝ)))]
        i32MAX 0).offset = ((3 / 2 : ℝ), (1 / 2 : ℝ)) ∧
    ls (((3 / 2 : ℝ), (0 : ℝ)) - (0 : Vec)) < ls (((3 / 2 : ℝ), (1 / 2 : ℝ)) - (0 : Vec)) ∧
    castI32 (ls (((3 / 2 : ℝ), (0 : ℝ)) - (0 : Vec))) =
      castI32 (ls (((3 / 2 : ℝ), (1 / 2 : ℝ)) - (0 : Vec))) ∧
    (huntScan ⟨2, 3 / 2⟩ 0 [(4, ((3 / 2 : ℝ), (1 / 5 : ℝ)))] i32MAX 0).kill = some 4 ∧
    (3 / 2 : ℝ) * (3 / 2) < ls (((3 / 2 : ℝ), (1 / 5 : ℝ)) - (0 : Vec)) := by
  have e1 : ls (((3 / 2 : ℝ), (1 / 2 : ℝ)) - (0 : Vec)) = 5 / 2 := by
    norm_num [ls, Prod.fst_sub, Prod.snd_sub]
  have e2 : ls (((3 / 2 : ℝ), (0 : ℝ)) - (0 : Vec)) = 9 / 4 := by
    norm_num [ls, Prod.fst_sub, Prod.snd_sub]
  have e3 : ls (((3 / 2 : ℝ), (1 / 5 : ℝ)) - (0 : Vec)) = 229 / 100 := by
    norm_num [ls, Prod.fst_sub, Prod.snd_sub]
  have c1 : castI32 (ls (((3 / 2 : ℝ), (1 / 2 : ℝ)) - (0 : Vec))) = 2 := by
    rw [e1]
    unfold castI32
    rw [show ⌊(5 / 2 : ℝ)⌋ = 2 by rw [Int.floor_eq_iff]; norm_num]
    norm_num [i32MAX]
  have c2 : castI32 (ls (((3 / 2 : ℝ), (0 : ℝ)) - (0 : Vec))) = 2 := by
    rw [e2]
    unfold castI32
    rw [show ⌊(9 / 4 : ℝ)⌋ = 2 by rw [Int.floor_eq_iff]; norm_num]
    norm_num [i32MAX]
  have c3 : castI32 (ls (((3 / 2 : ℝ), (1 / 5 : ℝ)) - (0 : Vec))) = 2 := by
    rw [e3]
    unfold castI32
    rw [show ⌊(229 / 100 : ℝ)⌋ = 2 by rw [Int.floor_eq_iff]; norm_num]
    norm_num [i32MAX]
  refine ⟨?_, ?_, ?_, ?_, ?_⟩
  · simp only [huntScan, c1, c2]
    rw [if_pos (by norm_num [i32MAX]), if_neg (by norm_num), if_neg (lt_irrefl _)]
    simp
  · rw [e1, e2]
    norm_num
  · rw [c1, c2]
  · simp only [huntScan, c3]
    rw [if_pos (by norm_num [i32MAX]), if_pos (by norm_num)]
  · rw [e3]
    norm_num

end Flock
